import Mathlib

/-!
Verification of the SageTV NFO generator (src/sagetv_nfo_generator.py).

The development shallowly embeds the pure and filesystem-manipulating parts of
the `NFOGeneratorUtility` class as executable Lean functions:

* strings are Lean `String`s (lists of characters), matching Python `str`;
* the filesystem is a finite association list from canonical absolute POSIX
  path strings to filesystem objects (regular file, directory, symbolic link);
* Python's `Path.exists()` follows symbolic links (it is `False` on a broken
  link); `Path.is_symlink()` does not; both are modelled accordingly;
* the JSON state file is a finite association list from media-file identity
  keys to artifact records, mirroring the dictionaries the script stores.

All definitions are translated from the Python source; doc comments cite the
function and line numbers they embed.
-/

namespace SageNfo

/-- Whitespace characters stripped by Python `str.strip()` (the ASCII set;
titles and paths handled by this system are ASCII). -/
def isPyWs (c : Char) : Bool :=
  c = ' ' || c = '\t' || c = '\n' || c = '\r' || c = '\x0b' || c = '\x0c'

/-- The fixed illegal-character set of `_clean_directory_name` (line 138). -/
def isIllegalChar (c : Char) : Bool :=
  c = '<' || c = '>' || c = ':' || c = '"' || c = '/' || c = '\\' ||
  c = '|' || c = '?' || c = '*'

/-- Characters removed by `rstrip('. ')` in `_clean_directory_name`. -/
def isDotSpace (c : Char) : Bool := c = '.' || c = ' '

/-- Line 139: replace every illegal character with a dash. -/
def replaceIllegal (l : List Char) : List Char :=
  l.map (fun c => if isIllegalChar c then '-' else c)

/-- Python `str.strip()`: drop whitespace from both ends. -/
def pyStrip (l : List Char) : List Char :=
  ((l.dropWhile isPyWs).reverse.dropWhile isPyWs).reverse

/-- Python `str.rstrip('. ')`: drop trailing dots and spaces. -/
def rstripDotSpace (l : List Char) : List Char :=
  (l.reverse.dropWhile isDotSpace).reverse

/-- The loop guard of line 141: the (nonempty) string ends with a dot or a
space.  Python's `endswith` is false on the empty string, so the separate
nonemptiness test of the guard is subsumed. -/
def endsDotSpace (l : List Char) : Bool :=
  match l.reverse with
  | [] => false
  | c :: _ => isDotSpace c

/-- The while loop of lines 141-142, driven by fuel.  Each iteration removes at
least the final character (which satisfies the guard), so fuel equal to the
length of the list always suffices for the loop to run to completion. -/
def trimLoopGo : Nat → List Char → List Char
  | 0, l => l
  | fuel + 1, l =>
    if endsDotSpace l then trimLoopGo fuel (pyStrip (rstripDotSpace l)) else l

/-- `_clean_directory_name` (lines 136-143): replace illegal characters, strip
surrounding whitespace, repeatedly drop trailing dot-space runs (re-stripping
after each removal), and fall back to the fixed token when empty. -/
def cleanDirectoryName (s : String) : String :=
  let stripped := pyStrip (replaceIllegal s.data)
  let cleaned := trimLoopGo stripped.length stripped
  if cleaned = [] then "UnknownMedia" else String.mk cleaned

/-! Helper lemmas about the list operations used by the sanitizer. -/

lemma dropWhile_head_not (p : Char → Bool) (l : List Char) (c : Char)
    (h : (l.dropWhile p).head? = some c) : p c = false := by
  induction l with
  | nil => simp [List.dropWhile] at h
  | cons a t ih =>
    by_cases hp : p a
    · simp [List.dropWhile, hp] at h
      exact ih h
    · simp [List.dropWhile, hp] at h
      subst h
      simp [hp]

lemma mem_of_mem_dropWhile (p : Char → Bool) (l : List Char) (c : Char)
    (h : c ∈ l.dropWhile p) : c ∈ l := by
  induction l with
  | nil => simp [List.dropWhile] at h
  | cons a t ih =>
    by_cases hp : p a
    · simp [List.dropWhile, hp] at h
      exact List.mem_cons_of_mem a (ih h)
    · simpa [List.dropWhile, hp] using h

lemma length_dropWhile_le' (p : Char → Bool) (l : List Char) :
    (l.dropWhile p).length ≤ l.length := by
  induction l with
  | nil => simp [List.dropWhile]
  | cons a t ih =>
    by_cases hp : p a
    · simp only [List.dropWhile, hp]
      exact le_trans ih (Nat.le_succ _)
    · simp [List.dropWhile, hp]

lemma head?_append_left {α : Type} (a b : List α) (c : α)
    (h : a.head? = some c) : (a ++ b).head? = some c := by
  cases a with
  | nil => simp at h
  | cons x t => simpa using h

/-- Dropping a suffix (via reverse-dropWhile-reverse) preserves the head of the
list, whenever the result is nonempty. -/
lemma rdrop_head? (p : Char → Bool) (l : List Char) (c : Char)
    (h : ((l.reverse.dropWhile p).reverse).head? = some c) : l.head? = some c := by
  have hsplit : l.reverse.takeWhile p ++ l.reverse.dropWhile p = l.reverse :=
    List.takeWhile_append_dropWhile p l.reverse
  have hl : l = (l.reverse.dropWhile p).reverse ++ (l.reverse.takeWhile p).reverse := by
    have h2 := congrArg List.reverse hsplit
    rw [List.reverse_append, List.reverse_reverse] at h2
    exact h2.symm
  rw [hl]
  exact head?_append_left _ _ c h

/-- A stripped list: neither end is whitespace. -/
def strippedEnds (l : List Char) : Bool :=
  (match l.head? with
   | none => true
   | some c => !isPyWs c) &&
  (match l.reverse.head? with
   | none => true
   | some c => !isPyWs c)

lemma pyStrip_head (l : List Char) (c : Char) (h : (pyStrip l).head? = some c) :
    isPyWs c = false := by
  unfold pyStrip at h
  have hd := rdrop_head? isPyWs (l.dropWhile isPyWs) c h
  exact dropWhile_head_not isPyWs l c hd

lemma pyStrip_last (l : List Char) (c : Char)
    (h : (pyStrip l).reverse.head? = some c) : isPyWs c = false := by
  unfold pyStrip at h
  rw [List.reverse_reverse] at h
  exact dropWhile_head_not isPyWs _ c h

lemma strippedEnds_of (l : List Char)
    (h1 : ∀ c, l.head? = some c → isPyWs c = false)
    (h2 : ∀ c, l.reverse.head? = some c → isPyWs c = false) :
    strippedEnds l = true := by
  unfold strippedEnds
  rw [Bool.and_eq_true]
  constructor
  · cases hl : l.head? with
    | none => rfl
    | some a =>
      have := h1 a hl
      simp [this]
  · cases hr : l.reverse.head? with
    | none => rfl
    | some a =>
      have := h2 a hr
      simp [this]

lemma strippedEnds_pyStrip (l : List Char) : strippedEnds (pyStrip l) = true :=
  strippedEnds_of _ (pyStrip_head l) (pyStrip_last l)

lemma dropWhile_eq_self_of_head (p : Char → Bool) (l : List Char)
    (h : ∀ c, l.head? = some c → p c = false) : l.dropWhile p = l := by
  cases l with
  | nil => rfl
  | cons a t =>
    have := h a rfl
    simp [List.dropWhile, this]

/-- If the ends of a list are not whitespace, stripping it changes nothing. -/
lemma pyStrip_eq_self (l : List Char) (h : strippedEnds l = true) : pyStrip l = l := by
  unfold strippedEnds at h
  rw [Bool.and_eq_true] at h
  obtain ⟨h1, h2⟩ := h
  have hdrop : l.dropWhile isPyWs = l := by
    apply dropWhile_eq_self_of_head
    intro c hc
    rw [hc] at h1
    simpa using h1
  have hdrop2 : l.reverse.dropWhile isPyWs = l.reverse := by
    apply dropWhile_eq_self_of_head
    intro c hc
    rw [hc] at h2
    simpa using h2
  unfold pyStrip
  rw [hdrop, hdrop2, List.reverse_reverse]

lemma length_pyStrip_le (l : List Char) : (pyStrip l).length ≤ l.length := by
  unfold pyStrip
  rw [List.length_reverse]
  calc ((l.dropWhile isPyWs).reverse.dropWhile isPyWs).length
      ≤ (l.dropWhile isPyWs).reverse.length := length_dropWhile_le' _ _
    _ = (l.dropWhile isPyWs).length := List.length_reverse _
    _ ≤ l.length := length_dropWhile_le' _ _

lemma length_rstripDotSpace_lt (l : List Char) (h : endsDotSpace l = true) :
    (rstripDotSpace l).length < l.length := by
  unfold endsDotSpace at h
  unfold rstripDotSpace
  cases hr : l.reverse with
  | nil =>
    rw [hr] at h
    simp at h
  | cons c t =>
    rw [hr] at h
    have hc : isDotSpace c = true := h
    have hlen : l.length = t.length + 1 := by
      have h2 := congrArg List.length hr
      simpa using h2
    rw [List.dropWhile_cons, if_pos hc, List.length_reverse]
    have := length_dropWhile_le' isDotSpace t
    omega

lemma mem_pyStrip (l : List Char) (c : Char) (h : c ∈ pyStrip l) : c ∈ l := by
  unfold pyStrip at h
  rw [List.mem_reverse] at h
  have := mem_of_mem_dropWhile isPyWs _ c h
  rw [List.mem_reverse] at this
  exact mem_of_mem_dropWhile isPyWs _ c this

lemma mem_rstripDotSpace (l : List Char) (c : Char) (h : c ∈ rstripDotSpace l) :
    c ∈ l := by
  unfold rstripDotSpace at h
  rw [List.mem_reverse] at h
  have := mem_of_mem_dropWhile isDotSpace _ c h
  rwa [List.mem_reverse] at this

/-! Invariants of the trim loop. -/

lemma trimLoopGo_strippedEnds (fuel : Nat) (l : List Char)
    (h : strippedEnds l = true) : strippedEnds (trimLoopGo fuel l) = true := by
  induction fuel generalizing l with
  | zero => exact h
  | succ n ih =>
    unfold trimLoopGo
    by_cases he : endsDotSpace l = true
    · rw [if_pos he]
      exact ih _ (strippedEnds_pyStrip _)
    · rw [if_neg he]
      exact h

lemma trimLoopGo_exit (fuel : Nat) (l : List Char) (hfuel : l.length ≤ fuel) :
    endsDotSpace (trimLoopGo fuel l) = false := by
  induction fuel generalizing l with
  | zero =>
    have : l = [] := List.length_eq_zero.mp (Nat.le_zero.mp hfuel)
    subst this
    rfl
  | succ n ih =>
    unfold trimLoopGo
    by_cases he : endsDotSpace l = true
    · rw [if_pos he]
      apply ih
      have h1 := length_pyStrip_le (rstripDotSpace l)
      have h2 := length_rstripDotSpace_lt l he
      omega
    · rw [if_neg he]
      exact Bool.eq_false_iff.mpr he

lemma trimLoopGo_mem (fuel : Nat) (l : List Char) (c : Char)
    (h : c ∈ trimLoopGo fuel l) : c ∈ l := by
  induction fuel generalizing l with
  | zero => exact h
  | succ n ih =>
    unfold trimLoopGo at h
    by_cases he : endsDotSpace l = true
    · rw [if_pos he] at h
      exact mem_rstripDotSpace _ _ (mem_pyStrip _ _ (ih _ h))
    · rwa [if_neg he] at h

lemma trimLoopGo_eq_self (fuel : Nat) (l : List Char)
    (h : endsDotSpace l = false) : trimLoopGo fuel l = l := by
  cases fuel with
  | zero => rfl
  | succ n =>
    unfold trimLoopGo
    rw [if_neg (by rw [h]; exact Bool.false_ne_true)]

/-- No character of the output of `replaceIllegal` is illegal (the substitute
dash is itself legal). -/
lemma replaceIllegal_no_illegal (l : List Char) (c : Char)
    (h : c ∈ replaceIllegal l) : isIllegalChar c = false := by
  unfold replaceIllegal at h
  rw [List.mem_map] at h
  obtain ⟨a, _, ha⟩ := h
  by_cases hi : isIllegalChar a
  · rw [if_pos hi] at ha
    subst ha
    decide
  · rw [if_neg hi] at ha
    subst ha
    exact Bool.eq_false_iff.mpr hi

lemma replaceIllegal_eq_self (l : List Char)
    (h : ∀ c ∈ l, isIllegalChar c = false) : replaceIllegal l = l := by
  unfold replaceIllegal
  induction l with
  | nil => rfl
  | cons a t ih =>
    have ha := h a (List.mem_cons_self a t)
    simp only [List.map_cons, ha, Bool.false_eq_true, if_false]
    rw [ih (fun c hc => h c (List.mem_cons_of_mem a hc))]

/-- Characterization of a sanitizer output other than the fallback token: it is
nonempty, contains no illegal character, has no whitespace at either end, and
ends with neither a dot nor a space. -/
lemma cleanDirectoryName_good (s : String) :
    cleanDirectoryName s = "UnknownMedia" ∨
    ((cleanDirectoryName s).data ≠ [] ∧
     (∀ c ∈ (cleanDirectoryName s).data, isIllegalChar c = false) ∧
     strippedEnds (cleanDirectoryName s).data = true ∧
     endsDotSpace (cleanDirectoryName s).data = false) := by
  simp only [cleanDirectoryName]
  set m := pyStrip (replaceIllegal s.data) with hm
  set r := trimLoopGo m.length m with hr
  by_cases hempty : r = []
  · left
    rw [if_pos hempty]
  · right
    rw [if_neg hempty]
    refine ⟨hempty, ?_, ?_, ?_⟩
    · intro c hc
      have hcm : c ∈ m := trimLoopGo_mem _ _ _ hc
      exact replaceIllegal_no_illegal _ _ (mem_pyStrip _ _ hcm)
    · exact trimLoopGo_strippedEnds _ _ (strippedEnds_pyStrip _)
    · exact trimLoopGo_exit _ _ (le_refl _)

/-- Applying the sanitizer to a string that is already in "good" form returns
it unchanged. -/
lemma cleanDirectoryName_fixed (s : String)
    (hne : s.data ≠ [])
    (hill : ∀ c ∈ s.data, isIllegalChar c = false)
    (hstr : strippedEnds s.data = true)
    (hend : endsDotSpace s.data = false) :
    cleanDirectoryName s = s := by
  have h1 : replaceIllegal s.data = s.data := replaceIllegal_eq_self _ hill
  have h2 : pyStrip s.data = s.data := pyStrip_eq_self _ hstr
  have h3 : trimLoopGo s.data.length s.data = s.data := trimLoopGo_eq_self _ _ hend
  simp only [cleanDirectoryName, h1, h2, h3]
  rw [if_neg hne]

/-- C9. The Path Sanitizer is idempotent: for every input string,
sanitizing twice gives the same result as sanitizing once. -/
theorem claim9_sanitizer_idempotent (s : String) :
    cleanDirectoryName (cleanDirectoryName s) = cleanDirectoryName s := by
  rcases cleanDirectoryName_good s with h | ⟨hne, hill, hstr, hend⟩
  · rw [h]
    decide
  · exact cleanDirectoryName_fixed _ hne hill hstr hend

/-! ## Episode identification (_parse_sxxeyy and the 3-tier logic) -/

/-- A character accepted by the optional separator class of the regex in
`_parse_sxxeyy` (line 147): a dot or a dash, nothing else. -/
def isSepDotDash (c : Char) : Bool := c = '.' || c = '-'

/-- Consume the optional single dot-or-dash separator.  The separator class is
disjoint from the digit class, so the regex's optional quantifier is
equivalent to this deterministic maximal munch. -/
def dropOptSep (l : List Char) : List Char :=
  match l with
  | c :: t => if isSepDotDash c then t else c :: t
  | [] => []

/-- Value of a (nonempty) digit string, as Python `int` computes it. -/
def digitsToNat (l : List Char) : Nat :=
  l.foldl (fun a c => 10 * a + (c.toNat - '0'.toNat)) 0

/-- Attempt to match the regex of line 147 anchored at the start of the list:
an `s` or `S`, an optional dot/dash, one or more digits, any run of
whitespace, an `e` or `E`, an optional dot/dash, and one or more digits.
Digits, whitespace and the letter classes are pairwise disjoint, so greedy
matching without backtracking is equivalent to the regex engine's search.
Digits are ASCII, as in every filename this system handles. -/
def matchSxxEyyAt (l : List Char) : Option (Nat × Nat) :=
  match l with
  | [] => none
  | c :: rest =>
    if c = 's' || c = 'S' then
      let r1 := dropOptSep rest
      let d1 := r1.takeWhile Char.isDigit
      if d1 = [] then none
      else
        let r2 := (r1.dropWhile Char.isDigit).dropWhile isPyWs
        match r2 with
        | [] => none
        | e :: rest2 =>
          if e = 'e' || e = 'E' then
            let r3 := dropOptSep rest2
            let d2 := r3.takeWhile Char.isDigit
            if d2 = [] then none else some (digitsToNat d1, digitsToNat d2)
          else none
    else none

/-- `re.search`: try the pattern at each start position, leftmost first. -/
def searchSxxEyy : List Char → Option (Nat × Nat)
  | [] => none
  | c :: rest =>
    match matchSxxEyyAt (c :: rest) with
    | some r => some r
    | none => searchSxxEyy rest

/-- `_parse_sxxeyy` (lines 145-153): search the filename for the SXXEYY
pattern and return the parsed pair; the `int()` conversion of an all-digit
group cannot fail, so the ValueError branch is dead. -/
def parseSxxEyy (s : String) : Option (Nat × Nat) :=
  searchSxxEyy s.data

/-- The three-tier season/episode selection of `_process_tv_show`
(lines 413-430): the SageTV hints are used whenever they are not both zero;
only when both are zero is the filename parsed, and when that fails the
default is season 0, episode 1.  The hints are the non-negative integers that
`int(data[...] or 0)` produced (a failed parse makes both zero). -/
def identifySeasonEpisode (seasonHint episodeHint : Nat) (filename : String) :
    Nat × Nat :=
  if seasonHint = 0 ∧ episodeHint = 0 then
    match parseSxxEyy filename with
    | some p => p
    | none => (0, 1)
  else (seasonHint, episodeHint)

/-- Modelled from the claim's words, for comparison with the code: use the
hints only when both are present and non-zero, otherwise fall back to parsing
the filename, otherwise default to season 0, episode 1. -/
def claimTierPolicy (seasonHint episodeHint : Nat) (filename : String) :
    Nat × Nat :=
  if 0 < seasonHint ∧ 0 < episodeHint then (seasonHint, episodeHint)
  else
    match parseSxxEyy filename with
    | some p => p
    | none => (0, 1)

/-- C7, counterexample.  With hints `(3, 0)` and a pattern-free filename the
code returns `(3, 0)` (hints are used whenever they are not both zero), while
the claimed policy — hints only "when present and non-zero", otherwise
fallback, otherwise `(0, 1)` — would return `(0, 1)`. -/
theorem claim7_counterexample :
    identifySeasonEpisode 3 0 "Family Dinner.mkv" = (3, 0) ∧
    claimTierPolicy 3 0 "Family Dinner.mkv" = (0, 1) ∧
    ((3 : Nat), (0 : Nat)) ≠ ((0 : Nat), (1 : Nat)) := by
  refine ⟨by decide, by decide, by decide⟩

/-- C7, amended.  The Episode Identifier uses the hints whenever they are not
both zero; when both are zero it falls back to parsing the filename; when the
filename has no pattern it defaults to season 0, episode 1.  In particular,
hints `(0,0)` with filename "Show.S02E05.mkv" give `(2,5)`; hints `(3,7)` give
`(3,7)` for every filename; and hints `(0,0)` with a pattern-free filename
give `(0,1)`. -/
theorem claim7_three_tier_policy :
    (∀ s e f, ¬(s = 0 ∧ e = 0) → identifySeasonEpisode s e f = (s, e)) ∧
    (∀ f p, parseSxxEyy f = some p → identifySeasonEpisode 0 0 f = p) ∧
    (∀ f, parseSxxEyy f = none → identifySeasonEpisode 0 0 f = (0, 1)) ∧
    identifySeasonEpisode 0 0 "Show.S02E05.mkv" = (2, 5) ∧
    (∀ f, identifySeasonEpisode 3 7 f = (3, 7)) ∧
    identifySeasonEpisode 0 0 "Family Dinner.mkv" = (0, 1) := by
  refine ⟨?_, ?_, ?_, by decide, ?_, by decide⟩
  · intro s e f h
    unfold identifySeasonEpisode
    rw [if_neg h]
  · intro f p h
    unfold identifySeasonEpisode
    rw [if_pos ⟨rfl, rfl⟩, h]
  · intro f h
    unfold identifySeasonEpisode
    rw [if_pos ⟨rfl, rfl⟩, h]
  · intro f
    unfold identifySeasonEpisode
    rw [if_neg (by omega)]

/-- C7, witness for the amended theorem: hints `(5, 0)` are not both zero, and
the identifier returns them unchanged. -/
theorem claim7_three_tier_policy_witness :
    ¬((5 : Nat) = 0 ∧ (0 : Nat) = 0) ∧
    identifySeasonEpisode 5 0 "Show.S02E05.mkv" = (5, 0) :=
  ⟨by decide, claim7_three_tier_policy.1 5 0 "Show.S02E05.mkv" (by decide)⟩

/-- C8, counterexample.  The claim says a space is an accepted separator
between the letter and its digits, so a filename containing "S 02E05" would
yield `(2, 5)`; the regex's separator class is only dot or dash, and the
search finds nothing. -/
theorem claim8_counterexample :
    parseSxxEyy "Show.S 02E05.mkv" = none := by decide

/-- C8, amended.  The pattern search recognizes `S<digits>E<digits>`
case-insensitively; between each letter and its digits an optional single dot
or dash is accepted (not a space), and between the two halves any run of
whitespace is accepted (not a dot or dash).  Filenames containing "S02E05",
"S.02E05", "S-02 05"-style and lowercase variants parse to `(2, 5)`, while a
space after `S` or a dash between the halves does not match. -/
theorem claim8_pattern_separators :
    parseSxxEyy "Show.S02E05.mkv" = some (2, 5) ∧
    parseSxxEyy "Show.S.02E05.mkv" = some (2, 5) ∧
    parseSxxEyy "Show.S-02 E05.mkv" = some (2, 5) ∧
    parseSxxEyy "Show.S02 E.05.mkv" = some (2, 5) ∧
    parseSxxEyy "Show.S02  E-05.mkv" = some (2, 5) ∧
    parseSxxEyy "Show.s02e05.mkv" = some (2, 5) ∧
    parseSxxEyy "Show.S02-E05.mkv" = none := by
  refine ⟨by decide, by decide, by decide, by decide, by decide, by decide, by decide⟩

/-! ## Target directory computation (_process_tv_show, lines 433-435) -/

/-- `str.strip()` on a Lean string. -/
def pyStripStr (s : String) : String := String.mk (pyStrip s.data)

/-- Python `f"{n:02d}"` for the non-negative season/episode numbers. -/
def pad2 (n : Nat) : String := if n < 10 then "0" ++ toString n else toString n

/-- `self.tv_shows_root = self.root_path / "TV Shows"` (line 94), with the
pathlib join modelled as POSIX string concatenation. -/
def tvShowsRoot (root : String) : String := root ++ "/" ++ "TV Shows"

/-- `show_path = self.tv_shows_root / cleaned_show_name` (line 434), where the
show name is the sanitized, stripped title (line 433). -/
def showPath (root title : String) : String :=
  tvShowsRoot root ++ "/" ++ cleanDirectoryName (pyStripStr title)

/-- `season_path = show_path / f"Season {season_num:02d}"` (line 435). -/
def seasonPath (root title : String) (season : Nat) : String :=
  showPath root title ++ "/" ++ ("Season " ++ pad2 season)

/-- C4, counterexample.  The top-level TV category directory is "TV Shows"
(line 94), not "TV": for root `/media/jellyfin`, title "Show", season 1 the
computed season directory is `/media/jellyfin/TV Shows/Show/Season 01`, which
differs from the claimed `/media/jellyfin/TV/Show/Season 01`. -/
theorem claim4_counterexample :
    seasonPath "/media/jellyfin" "Show" 1 = "/media/jellyfin/TV Shows/Show/Season 01" ∧
    seasonPath "/media/jellyfin" "Show" 1 ≠ "/media/jellyfin/TV/Show/Season 01" := by
  refine ⟨by decide, by decide⟩

/-- C4, amended.  For every episode record the computed target directory is
`<root>/TV Shows/<sanitized stripped title>/Season <season zero-padded to 2
digits>`; in particular an episode of the show "Show" resolved to season 1
gets its links under `<root>/TV Shows/Show/Season 01`. -/
theorem claim4_season_directory :
    (∀ root title season, seasonPath root title season =
      root ++ "/TV Shows/" ++ cleanDirectoryName (pyStripStr title) ++
        "/Season " ++ pad2 season) ∧
    seasonPath "/media/jellyfin" "Show" 1 = "/media/jellyfin/TV Shows/Show/Season 01" := by
  constructor
  · intro root title season
    unfold seasonPath showPath tvShowsRoot
    simp only [String.append_assoc]
    rfl
  · decide

/-! ## Source path resolution (_resolve_actual_file_path, lines 204-232) -/

/-- The pathlib attributes of a declared media path that
`_resolve_actual_file_path` inspects: whether it is absolute, its parent
directory, its stem, and its suffix.  An alternate-extension probe keeps the
directory and stem and substitutes the suffix. -/
structure PyPath where
  absolute : Bool
  dir : String
  stem : String
  suffix : String
deriving DecidableEq, Repr

/-- The fixed ordered alternate-extension list of line 219. -/
def commonExtensions : List String := [".mkv", ".mp4", ".avi", ".ts", ".mpg"]

/-- `_resolve_actual_file_path` (lines 204-232), parameterized by the
`is_file` oracle of the surrounding filesystem: return the declared path when
it is a file; otherwise give up when it is relative or has an empty stem;
otherwise return the first alternate-extension sibling that is a file. -/
def resolveActualFilePath (isFile : PyPath → Bool) (p : PyPath) : Option PyPath :=
  if isFile p then some p
  else if p.absolute = false ∨ p.stem = "" then none
  else
    match commonExtensions.find? (fun ext => isFile { p with suffix := ext }) with
    | some ext => some { p with suffix := ext }
    | none => none

/-- C10.  When the declared path does not exist as a file and is relative (or
has an empty stem), resolution returns no path — for every possible filesystem
oracle, so no alternate extension is even consulted. -/
theorem claim10_relative_path_unresolvable (isFile : PyPath → Bool) (p : PyPath)
    (hfile : isFile p = false) (habs : p.absolute = false ∨ p.stem = "") :
    resolveActualFilePath isFile p = none := by
  unfold resolveActualFilePath
  rw [if_neg (by rw [hfile]; exact Bool.false_ne_true), if_pos habs]

/-- C10, witness: a relative declared path whose `.mkv` sibling would exist is
still unresolvable. -/
theorem claim10_relative_path_unresolvable_witness :
    (fun q : PyPath => q.suffix == ".mkv") ⟨false, "media", "show", ".mpg"⟩ = false ∧
    resolveActualFilePath (fun q : PyPath => q.suffix == ".mkv")
      ⟨false, "media", "show", ".mpg"⟩ = none :=
  ⟨by decide, claim10_relative_path_unresolvable _ _ (by decide) (Or.inl rfl)⟩

/-! ## Filesystem and state model

Paths are canonical absolute POSIX path strings (so `Path.resolve()` is the
identity on them and `as_posix()` changes nothing).  A filesystem is a finite
association list; lookup finds the first binding.  Symbolic-link targets in
this program are always media files, never further links, so one level of
link-following suffices for `exists()`.  Both the filesystem and the persisted
JSON state are string-keyed finite maps, embedded by the same association-list
operations. -/

def lookupA {β : Type} : List (String × β) → String → Option β
  | [], _ => none
  | (q, o) :: t, p => if q = p then some o else lookupA t p

def removeA {β : Type} (l : List (String × β)) (p : String) : List (String × β) :=
  l.filter (fun e => e.1 != p)

def setA {β : Type} (l : List (String × β)) (p : String) (o : β) :
    List (String × β) :=
  (p, o) :: removeA l p

lemma lookupA_removeA {β : Type} (l : List (String × β)) (p q : String) :
    lookupA (removeA l p) q = if p = q then none else lookupA l q := by
  induction l with
  | nil =>
    simp [removeA, lookupA, ite_self]
  | cons e t ih =>
    obtain ⟨k, o⟩ := e
    by_cases hkp : k = p
    · subst hkp
      have hdrop : removeA ((k, o) :: t) k = removeA t k := by
        simp [removeA, List.filter]
      rw [hdrop, ih]
      by_cases hkq : k = q
      · rw [if_pos hkq, if_pos hkq]
      · rw [if_neg hkq, if_neg hkq]
        simp only [lookupA]
        rw [if_neg hkq]
    · have hbne : (k != p) = true := by simpa using hkp
      have hkeep : removeA ((k, o) :: t) p = (k, o) :: removeA t p := by
        simp [removeA, List.filter, hbne]
      rw [hkeep]
      simp only [lookupA]
      by_cases hkq : k = q
      · rw [if_pos hkq, if_pos hkq,
          if_neg (fun hpq : p = q => hkp (hkq.trans hpq.symm))]
      · rw [if_neg hkq, if_neg hkq, ih]

lemma lookupA_setA {β : Type} (l : List (String × β)) (p : String) (o : β)
    (q : String) :
    lookupA (setA l p o) q = if p = q then some o else lookupA l q := by
  unfold setA
  simp only [lookupA]
  by_cases hpq : p = q
  · rw [if_pos hpq, if_pos hpq]
  · rw [if_neg hpq, if_neg hpq, lookupA_removeA, if_neg hpq]

lemma removeA_removeA {β : Type} (l : List (String × β)) (p : String) :
    removeA (removeA l p) p = removeA l p := by
  unfold removeA
  rw [List.filter_filter]
  simp

lemma setA_setA {β : Type} (l : List (String × β)) (p : String) (o o' : β) :
    setA (setA l p o) p o' = setA l p o' := by
  unfold setA
  have h : removeA ((p, o) :: removeA l p) p = removeA (removeA l p) p := by
    simp [removeA, List.filter]
  rw [h, removeA_removeA]

inductive FSObj where
  | file (content : String)
  | dir
  | symlink (target : String)
deriving DecidableEq, Repr

abbrev FS := List (String × FSObj)

/-- Python `Path.exists()`: true for a file or directory, and for a symbolic
link exactly when its target exists; false for a broken link. -/
def fsExists (fs : FS) (p : String) : Bool :=
  match lookupA fs p with
  | some (FSObj.file _) => true
  | some FSObj.dir => true
  | some (FSObj.symlink t) =>
    match lookupA fs t with
    | some (FSObj.file _) => true
    | some FSObj.dir => true
    | _ => false
  | none => false

/-- Python `Path.is_symlink()`: true exactly when the entry is a symbolic
link, broken or not. -/
def isSymlinkAt (fs : FS) (p : String) : Bool :=
  match lookupA fs p with
  | some (FSObj.symlink _) => true
  | _ => false

/-- `_get_comparable_path` (lines 234-259) on a POSIX host: `resolve()` and
`as_posix()` are the identity on the canonical absolute POSIX paths of the
model, no case folding is applied off Windows, and the Windows-only extended
path marker is stripped after normalization. -/
def comparablePath (s : String) : String :=
  if s = "" then ""
  else if s.data.take 4 = ['/', '/', '?', '/'] then String.mk (s.data.drop 4)
  else s

/-- One per-record artifact entry of the persisted state
(`current_state[media_file_id]`, lines 336-341). -/
structure ArtifactRecord where
  link_path : String
  nfo_path : String
  original_path : String
  resolved_filename_base : String
deriving DecidableEq, Repr

abbrev StateMap := List (String × ArtifactRecord)

/-- Python `Path.suffix`: the final extension of the last path component —
empty when the name has no dot, starts with a dot, or ends with a dot. -/
def pySuffix (s : String) : String :=
  let nmRev := s.data.reverse.takeWhile (fun c => c != '/')
  let sufRev := nmRev.takeWhile (fun c => c != '.')
  if sufRev.length = nmRev.length then ""
  else if sufRev.length = 0 then ""
  else if sufRev.length + 1 = nmRev.length then ""
  else String.mk ('.' :: sufRev.reverse)

/-- `target_dir.mkdir(parents=True, exist_ok=True)` (line 283): creates the
directory when the path is free; an existing directory — also one reached
through a symbolic link — is accepted; any other occupant raises OSError.
The per-record handler in `run_generator` catches such an exception, leaving
filesystem and state unchanged, so the caller treats `none` as "no effect".
Intermediate parent directories are elided: no claim depends on them. -/
def mkdirParents (fs : FS) (d : String) : Option FS :=
  match lookupA fs d with
  | none => some (setA fs d FSObj.dir)
  | some FSObj.dir => some fs
  | some (FSObj.symlink t) =>
    match lookupA fs t with
    | some FSObj.dir => some fs
    | _ => none
  | some (FSObj.file _) => none

/-- The symbolic-link step of `_create_media_files` (lines 286-321):

* the symlink path exists and holds a symbolic link: replace it when its
  target (comparable form) differs from the resolved source, else leave it;
* the symlink path exists but is not a symbolic link: skip the record
  entirely (warning, early return — modelled as `none`);
* the symlink path does not "exist" and the slot is free: create the link;
  if a broken symbolic link occupies the slot (`exists()` is false on it),
  `os.symlink` raises FileExistsError, which lines 319-321 catch before
  returning early — modelled as `none` as well. -/
def linkStepF (fs1 : FS) (symlinkPath resolvedPath : String) : Option FS :=
  if fsExists fs1 symlinkPath then
    match lookupA fs1 symlinkPath with
    | some (FSObj.symlink t) =>
      if comparablePath t ≠ comparablePath resolvedPath then
        some (setA (removeA fs1 symlinkPath) symlinkPath
          (FSObj.symlink resolvedPath))
      else some fs1
    | _ => none
  else
    match lookupA fs1 symlinkPath with
    | none => some (setA fs1 symlinkPath (FSObj.symlink resolvedPath))
    | some _ => none

/-- The sidecar step of lines 327-333: write the NFO file only when absent. -/
def nfoStepF (fs2 : FS) (nfoPath nfoContent : String) : FS :=
  if fsExists fs2 nfoPath then fs2 else setA fs2 nfoPath (FSObj.file nfoContent)

/-- `_create_media_files` (lines 271-341): ensure the target directory,
perform the symbolic-link step, then the sidecar step, and finally store the
current-state entry for the record's identity key; the early-return branches
(non-directory at the target, non-symlink conflict, failed link creation)
leave the state untouched.  `nfoContent` stands for the text
`_generate_nfo_content` computes from the record's metadata; its exact value
is irrelevant to every property proved here, so it is passed in. -/
def createMediaFiles (fs : FS) (st : StateMap) (mediaFileID nfoContent : String)
    (resolvedPath targetDir filenameBase : String) : FS × StateMap :=
  let fileExtension := pySuffix resolvedPath
  let symlinkPath := targetDir ++ "/" ++ filenameBase ++ fileExtension
  let nfoPath := targetDir ++ "/" ++ filenameBase ++ ".nfo"
  match mkdirParents fs targetDir with
  | none => (fs, st)
  | some fs1 =>
    match linkStepF fs1 symlinkPath resolvedPath with
    | none => (fs1, st)
    | some fs2 =>
      (nfoStepF fs2 nfoPath nfoContent,
       setA st mediaFileID ⟨symlinkPath, nfoPath, resolvedPath, filenameBase⟩)

/-- One iteration of the cleanup loop of `_cleanup_stale_files`
(lines 549-600), for one previous-state entry.  The `if not link_path` guard
of line 555 is dead code — `Path('')` is a truthy object — so it is not
modelled.  Deletion requires the link path to exist (line 562: `exists()`
follows the link), to be a symbolic link (line 567), and its recorded target
to be missing (line 578); then the link and, when present, the sidecar NFO
are removed. -/
def cleanupEntry (fs : FS) (count : Nat) (r : ArtifactRecord) : FS × Nat :=
  if fsExists fs r.link_path = false then (fs, count)
  else if isSymlinkAt fs r.link_path = false then (fs, count)
  else
    match lookupA fs r.link_path with
    | some (FSObj.symlink t) =>
      if fsExists fs t = false then
        let fs1 := removeA fs r.link_path
        let fs2 := if fsExists fs1 r.nfo_path then removeA fs1 r.nfo_path else fs1
        (fs2, count + 1)
      else (fs, count)
    | _ => (fs, count)

/-- `_cleanup_stale_files` (lines 541-603): fold the per-entry step over the
previous snapshot, counting removed artifacts. -/
def cleanupStaleFiles (fs : FS) (prev : StateMap) : FS × Nat :=
  prev.foldl (fun acc e => cleanupEntry acc.1 acc.2 e.2) (fs, 0)

/-- The fixed extension list probed by the collision scan (lines 461, 517). -/
def collisionSuffixes : List String := [".mpg", ".mkv", ".mp4", ".ts", ".avi"]

/-- The on-disk collision scan shared by `_process_tv_show` (lines 456-473)
and `_process_movie` (lines 512-527): a collision is detected when, for some
probe extension, the default-named path holds an existing symbolic link whose
target (comparable form) differs from the new record's resolved source.
`exists()` precedes `is_symlink()`, so a broken link never triggers it. -/
def collisionDetected (fs : FS) (targetDir defaultBase resolvedPath : String) :
    Bool :=
  collisionSuffixes.any (fun suffix =>
    let p := targetDir ++ "/" ++ defaultBase ++ suffix
    fsExists fs p && isSymlinkAt fs p &&
      (match lookupA fs p with
       | some (FSObj.symlink t) =>
         comparablePath t != comparablePath resolvedPath
       | _ => false))

/-- `_get_resolved_filename_base` (lines 261-268): the memoized final base of
a previous run, when the previous state has the entry. -/
def getResolvedFilenameBase (prev : StateMap) (mediaFileID : String) :
    Option String :=
  match lookupA prev mediaFileID with
  | some r => some r.resolved_filename_base
  | none => none

/-- The final-filename resolution block of `_process_tv_show` (lines 449-478)
and `_process_movie` (lines 505-532): a truthy memoized name from the
previous state is used verbatim; otherwise the disk is scanned and, on a
collision, the identity key is appended to the default base. -/
def resolveFilenameBase (fs : FS) (prev : StateMap)
    (mediaFileID targetDir defaultBase resolvedPath : String) : String :=
  let fresh :=
    if collisionDetected fs targetDir defaultBase resolvedPath
    then defaultBase ++ " - " ++ mediaFileID
    else defaultBase
  match getResolvedFilenameBase prev mediaFileID with
  | some name => if name = "" then fresh else name
  | none => fresh

/-! ## The stale-artifact sweep never mutates the filesystem

Line 562 tests `link_path.exists()` before the symlink test of line 567, and
`Path.exists()` is false on a broken symbolic link.  The deletion branch of
line 578 additionally requires the link's recorded target not to exist, which
contradicts the survival of the `exists()` test on the link itself.  Hence no
branch of the loop body ever deletes anything. -/

lemma cleanupEntry_eq (fs : FS) (count : Nat) (r : ArtifactRecord) :
    cleanupEntry fs count r = (fs, count) := by
  unfold cleanupEntry
  split
  next => rfl
  next h1 =>
    split
    next => rfl
    next h2 =>
      split
      next t heq =>
        split
        next hcond =>
          exfalso
          have h1t : fsExists fs r.link_path = true := by
            cases hfe : fsExists fs r.link_path with
            | true => rfl
            | false => exact absurd hfe h1
          unfold fsExists at h1t
          rw [heq] at h1t
          have h1t' : (match lookupA fs t with
                       | some (FSObj.file _) => true
                       | some FSObj.dir => true
                       | _ => false) = true := h1t
          unfold fsExists at hcond
          cases hlt : lookupA fs t with
          | none =>
            rw [hlt] at h1t'
            simp at h1t'
          | some o2 =>
            cases o2 with
            | file c =>
              rw [hlt] at hcond
              simp at hcond
            | dir =>
              rw [hlt] at hcond
              simp at hcond
            | symlink u =>
              rw [hlt] at h1t'
              simp at h1t'
        next => rfl
      next => rfl

lemma cleanup_foldl_id (prev : StateMap) (acc : FS × Nat) :
    List.foldl (fun acc e => cleanupEntry acc.1 acc.2 e.2) acc prev = acc := by
  induction prev generalizing acc with
  | nil => rfl
  | cons e t ih =>
    simp only [List.foldl]
    rw [cleanupEntry_eq, Prod.mk.eta]
    exact ih acc

/-- The sweep returns the filesystem unchanged and removes zero artifacts. -/
lemma cleanupStaleFiles_eq (fs : FS) (prev : StateMap) :
    cleanupStaleFiles fs prev = (fs, 0) :=
  cleanup_foldl_id prev (fs, 0)

/-- C5.  For every entry of the previous state (indeed for every path at
all), the stale-artifact sweep never deletes a symbolic link whose target
still exists, and never deletes a filesystem object that is not a symbolic
link: any such object is still present, unchanged, after the sweep. -/
theorem claim5_cleanup_safety (fs : FS) (prev : StateMap) (p : String) :
    (∀ t, lookupA fs p = some (FSObj.symlink t) → fsExists fs t = true →
      lookupA (cleanupStaleFiles fs prev).1 p = some (FSObj.symlink t)) ∧
    (∀ o, lookupA fs p = some o → (∀ t, o ≠ FSObj.symlink t) →
      lookupA (cleanupStaleFiles fs prev).1 p = some o) := by
  rw [cleanupStaleFiles_eq]
  exact ⟨fun t h _ => h, fun o h _ => h⟩

/-- C5, witness: a valid symbolic link recorded in the previous state
survives the sweep. -/
theorem claim5_cleanup_safety_witness :
    lookupA [("/media/a.mkv", FSObj.file "x"),
      ("/out/Show.mkv", FSObj.symlink "/media/a.mkv")] "/out/Show.mkv" =
      some (FSObj.symlink "/media/a.mkv") ∧
    fsExists [("/media/a.mkv", FSObj.file "x"),
      ("/out/Show.mkv", FSObj.symlink "/media/a.mkv")] "/media/a.mkv" = true ∧
    lookupA (cleanupStaleFiles
      [("/media/a.mkv", FSObj.file "x"),
       ("/out/Show.mkv", FSObj.symlink "/media/a.mkv")]
      [("1", ⟨"/out/Show.mkv", "/out/Show.nfo", "/media/a.mkv", "Show"⟩)]).1
      "/out/Show.mkv" = some (FSObj.symlink "/media/a.mkv") :=
  ⟨by decide, by decide,
    (claim5_cleanup_safety
      [("/media/a.mkv", FSObj.file "x"),
       ("/out/Show.mkv", FSObj.symlink "/media/a.mkv")]
      [("1", ⟨"/out/Show.mkv", "/out/Show.nfo", "/media/a.mkv", "Show"⟩)]
      "/out/Show.mkv").1 "/media/a.mkv" (by decide) (by decide)⟩

/-- C2, counterexample.  A stale episode from the previous state — its link's
target is gone — whose season folder holds nothing but the link and the
sidecar: after the sweep the season folder is still present (and so are the
link and the sidecar), contradicting the claim that the emptied folder is
removed.  There is no directory-removal code in `_cleanup_stale_files`, and
the `exists()` guard of line 562 is false on the broken link, so even the
link and sidecar survive. -/
theorem claim2_counterexample :
    lookupA (cleanupStaleFiles
      [("/r/TV Shows/Show/Season 01", FSObj.dir),
       ("/r/TV Shows/Show/Season 01/Ep.mkv", FSObj.symlink "/media/ep.mkv"),
       ("/r/TV Shows/Show/Season 01/Ep.nfo", FSObj.file "n")]
      [("7", ⟨"/r/TV Shows/Show/Season 01/Ep.mkv",
              "/r/TV Shows/Show/Season 01/Ep.nfo", "/media/ep.mkv", "Ep"⟩)]).1
      "/r/TV Shows/Show/Season 01" = some FSObj.dir ∧
    lookupA (cleanupStaleFiles
      [("/r/TV Shows/Show/Season 01", FSObj.dir),
       ("/r/TV Shows/Show/Season 01/Ep.mkv", FSObj.symlink "/media/ep.mkv"),
       ("/r/TV Shows/Show/Season 01/Ep.nfo", FSObj.file "n")]
      [("7", ⟨"/r/TV Shows/Show/Season 01/Ep.mkv",
              "/r/TV Shows/Show/Season 01/Ep.nfo", "/media/ep.mkv", "Ep"⟩)]).1
      "/r/TV Shows/Show/Season 01/Ep.mkv" =
      some (FSObj.symlink "/media/ep.mkv") := by
  refine ⟨by decide, by decide⟩

/-- C2, amended.  The stale-artifact sweep removes no directory whatsoever:
every directory present before the sweep, empty or not — season, show and
movie folders included — is still present after it.  (The sweep in fact
leaves the entire filesystem unchanged.) -/
theorem claim2_no_directory_removed (fs : FS) (prev : StateMap) (p : String)
    (h : lookupA fs p = some FSObj.dir) :
    lookupA (cleanupStaleFiles fs prev).1 p = some FSObj.dir := by
  rw [cleanupStaleFiles_eq]
  exact h

/-- C2, witness for the amended theorem: an (empty) season directory is still
there after the sweep. -/
theorem claim2_no_directory_removed_witness :
    lookupA [("/r/TV Shows/Show/Season 01", FSObj.dir)]
      "/r/TV Shows/Show/Season 01" = some FSObj.dir ∧
    lookupA (cleanupStaleFiles [("/r/TV Shows/Show/Season 01", FSObj.dir)]
      [("7", ⟨"/gone.mkv", "/gone.nfo", "/media/gone.mpg", "G"⟩)]).1
      "/r/TV Shows/Show/Season 01" = some FSObj.dir :=
  ⟨by decide,
    claim2_no_directory_removed [("/r/TV Shows/Show/Season 01", FSObj.dir)]
      [("7", ⟨"/gone.mkv", "/gone.nfo", "/media/gone.mpg", "G"⟩)]
      "/r/TV Shows/Show/Season 01" (by decide)⟩

/-! ## Branch equations of the Artifact Writer -/

/-- A path strictly below a directory is a different string. -/
lemma path_extends_ne (d x y : String) : d ++ "/" ++ x ++ y ≠ d := by
  intro h
  have hl := congrArg String.length h
  simp only [String.length_append] at hl
  have h1 : ("/" : String).length = 1 := rfl
  omega

lemma mkdirParents_of_absent (fs : FS) (d : String)
    (h : lookupA fs d = none) :
    mkdirParents fs d = some (setA fs d FSObj.dir) := by
  unfold mkdirParents
  rw [h]

lemma mkdirParents_of_dir (fs : FS) (d : String)
    (h : lookupA fs d = some FSObj.dir) : mkdirParents fs d = some fs := by
  unfold mkdirParents
  rw [h]

lemma fsExists_of_lookup_none (fs : FS) (p : String)
    (h : lookupA fs p = none) : fsExists fs p = false := by
  unfold fsExists
  rw [h]

lemma fsExists_of_file (fs : FS) (p c : String)
    (h : lookupA fs p = some (FSObj.file c)) : fsExists fs p = true := by
  unfold fsExists
  rw [h]

lemma fsExists_of_dir (fs : FS) (p : String)
    (h : lookupA fs p = some FSObj.dir) : fsExists fs p = true := by
  unfold fsExists
  rw [h]

lemma fsExists_of_symlink_file (fs : FS) (p t c : String)
    (h : lookupA fs p = some (FSObj.symlink t))
    (ht : lookupA fs t = some (FSObj.file c)) : fsExists fs p = true := by
  unfold fsExists
  rw [h]
  show (match lookupA fs t with
        | some (FSObj.file _) => true
        | some FSObj.dir => true
        | _ => false) = true
  rw [ht]

lemma linkStepF_create (fs1 : FS) (lp rp : String)
    (h : lookupA fs1 lp = none) :
    linkStepF fs1 lp rp = some (setA fs1 lp (FSObj.symlink rp)) := by
  unfold linkStepF
  rw [if_neg (by rw [fsExists_of_lookup_none fs1 lp h]; exact Bool.false_ne_true), h]

lemma linkStepF_keep (fs1 : FS) (lp rp t : String)
    (hlk : lookupA fs1 lp = some (FSObj.symlink t))
    (hex : fsExists fs1 lp = true)
    (hcmp : comparablePath t = comparablePath rp) :
    linkStepF fs1 lp rp = some fs1 := by
  unfold linkStepF
  rw [if_pos hex]
  simp only [hlk]
  rw [if_neg (fun hne => hne hcmp)]

lemma linkStepF_replace (fs1 : FS) (lp rp t : String)
    (hlk : lookupA fs1 lp = some (FSObj.symlink t))
    (hex : fsExists fs1 lp = true)
    (hcmp : comparablePath t ≠ comparablePath rp) :
    linkStepF fs1 lp rp = some (setA (removeA fs1 lp) lp (FSObj.symlink rp)) := by
  unfold linkStepF
  rw [if_pos hex]
  simp only [hlk]
  rw [if_pos hcmp]

lemma linkStepF_skip_file (fs1 : FS) (lp rp c : String)
    (hlk : lookupA fs1 lp = some (FSObj.file c)) :
    linkStepF fs1 lp rp = none := by
  unfold linkStepF
  rw [if_pos (fsExists_of_file fs1 lp c hlk)]
  simp only [hlk]

lemma linkStepF_skip_dir (fs1 : FS) (lp rp : String)
    (hlk : lookupA fs1 lp = some FSObj.dir) :
    linkStepF fs1 lp rp = none := by
  unfold linkStepF
  rw [if_pos (fsExists_of_dir fs1 lp hlk)]
  simp only [hlk]

lemma linkStepF_skip_broken (fs1 : FS) (lp rp : String) (o : FSObj)
    (hlk : lookupA fs1 lp = some o)
    (hex : fsExists fs1 lp = false) :
    linkStepF fs1 lp rp = none := by
  unfold linkStepF
  rw [if_neg (by rw [hex]; exact Bool.false_ne_true)]
  simp only [hlk]

lemma createMediaFiles_eq_mkdir_none (fs : FS) (st : StateMap)
    (i n rp d b : String) (h : mkdirParents fs d = none) :
    createMediaFiles fs st i n rp d b = (fs, st) := by
  simp only [createMediaFiles, h]

lemma createMediaFiles_eq_link_none (fs fs1 : FS) (st : StateMap)
    (i n rp d b : String) (h : mkdirParents fs d = some fs1)
    (h2 : linkStepF fs1 (d ++ "/" ++ b ++ pySuffix rp) rp = none) :
    createMediaFiles fs st i n rp d b = (fs1, st) := by
  simp only [createMediaFiles, h, h2]

lemma createMediaFiles_eq_go (fs fs1 fs2 : FS) (st : StateMap)
    (i n rp d b : String) (h : mkdirParents fs d = some fs1)
    (h2 : linkStepF fs1 (d ++ "/" ++ b ++ pySuffix rp) rp = some fs2) :
    createMediaFiles fs st i n rp d b =
      (nfoStepF fs2 (d ++ "/" ++ b ++ ".nfo") n,
       setA st i ⟨d ++ "/" ++ b ++ pySuffix rp, d ++ "/" ++ b ++ ".nfo", rp, b⟩) := by
  simp only [createMediaFiles, h, h2]

/-- C1, counterexample.  When a regular (non-symlink) file occupies the link
path, `_create_media_files` returns at line 313 before the state update of
line 336: after the call the current-state snapshot has no entry for the
record's identity key, contradicting the claim that the entry is recorded in
every branch. -/
theorem claim1_counterexample :
    (createMediaFiles
      [("/out", FSObj.dir), ("/out/Base.mkv", FSObj.file "junk")]
      [] "42" "nfo" "/media/a.mkv" "/out" "Base").2 = [] ∧
    lookupA (createMediaFiles
      [("/out", FSObj.dir), ("/out/Base.mkv", FSObj.file "junk")]
      [] "42" "nfo" "/media/a.mkv" "/out" "Base").2 "42" = none := by
  refine ⟨by decide, by decide⟩

/-- C1, amended.  The Artifact Writer records the current-state entry —
link path, sidecar path, source path and resolved base — for the record's
identity key in every branch that passes the symbolic-link step: when the
link slot is free, and when it holds a (valid) symbolic link, whether that
link is kept or replaced.  In the early-return branches (non-symlink
conflict, failed link creation, failed directory creation) no entry is
recorded. -/
theorem claim1_state_recorded (fs : FS) (st : StateMap)
    (mediaFileID nfoContent resolvedPath targetDir filenameBase : String)
    (hdir : lookupA fs targetDir = none ∨ lookupA fs targetDir = some FSObj.dir)
    (hlink : lookupA fs (targetDir ++ "/" ++ filenameBase ++ pySuffix resolvedPath) = none ∨
      ∃ t c, lookupA fs (targetDir ++ "/" ++ filenameBase ++ pySuffix resolvedPath) =
          some (FSObj.symlink t) ∧ t ≠ targetDir ∧
          lookupA fs t = some (FSObj.file c)) :
    lookupA (createMediaFiles fs st mediaFileID nfoContent resolvedPath
        targetDir filenameBase).2 mediaFileID =
      some ⟨targetDir ++ "/" ++ filenameBase ++ pySuffix resolvedPath,
            targetDir ++ "/" ++ filenameBase ++ ".nfo",
            resolvedPath, filenameBase⟩ := by
  have hlpne : targetDir ++ "/" ++ filenameBase ++ pySuffix resolvedPath ≠ targetDir :=
    path_extends_ne targetDir filenameBase (pySuffix resolvedPath)
  obtain ⟨fs1, hm, htr⟩ : ∃ fs1, mkdirParents fs targetDir = some fs1 ∧
      ∀ q, q ≠ targetDir → lookupA fs1 q = lookupA fs q := by
    rcases hdir with hd | hd
    · exact ⟨_, mkdirParents_of_absent fs targetDir hd,
        fun q hq => by rw [lookupA_setA, if_neg (fun h => hq h.symm)]⟩
    · exact ⟨fs, mkdirParents_of_dir fs targetDir hd, fun q hq => rfl⟩
  rcases hlink with hl | ⟨t, c, hlk0, htd, htc⟩
  · have hlf1 : lookupA fs1 (targetDir ++ "/" ++ filenameBase ++ pySuffix resolvedPath) = none := by
      rw [htr _ hlpne]
      exact hl
    rw [createMediaFiles_eq_go fs fs1 _ st _ _ _ _ _ hm
      (linkStepF_create fs1 _ resolvedPath hlf1)]
    rw [lookupA_setA, if_pos rfl]
  · have hlf1 : lookupA fs1 (targetDir ++ "/" ++ filenameBase ++ pySuffix resolvedPath) =
        some (FSObj.symlink t) := by
      rw [htr _ hlpne]
      exact hlk0
    have htcf1 : lookupA fs1 t = some (FSObj.file c) := by
      rw [htr t htd]
      exact htc
    have hex : fsExists fs1 (targetDir ++ "/" ++ filenameBase ++ pySuffix resolvedPath) = true :=
      fsExists_of_symlink_file fs1 _ t c hlf1 htcf1
    by_cases hcmp : comparablePath t = comparablePath resolvedPath
    · rw [createMediaFiles_eq_go fs fs1 _ st _ _ _ _ _ hm
        (linkStepF_keep fs1 _ resolvedPath t hlf1 hex hcmp)]
      rw [lookupA_setA, if_pos rfl]
    · rw [createMediaFiles_eq_go fs fs1 _ st _ _ _ _ _ hm
        (linkStepF_replace fs1 _ resolvedPath t hlf1 hex hcmp)]
      rw [lookupA_setA, if_pos rfl]

/-- C1, witness for the amended theorem: on an empty filesystem the writer
creates everything and records the state entry. -/
theorem claim1_state_recorded_witness :
    lookupA ([] : FS) "/out" = none ∧
    lookupA ([] : FS) ("/out" ++ "/" ++ "B" ++ pySuffix "/media/a.mkv") = none ∧
    lookupA (createMediaFiles [] [] "42" "x" "/media/a.mkv" "/out" "B").2 "42" =
      some ⟨"/out" ++ "/" ++ "B" ++ pySuffix "/media/a.mkv",
            "/out" ++ "/" ++ "B" ++ ".nfo", "/media/a.mkv", "B"⟩ :=
  ⟨rfl, rfl,
    claim1_state_recorded [] [] "42" "x" "/media/a.mkv" "/out" "B"
      (Or.inl rfl) (Or.inl rfl)⟩

/-! ## Idempotence of the Artifact Writer -/

lemma mkdirParents_lookup_ne_none (fs fs1 : FS) (d : String)
    (hm : mkdirParents fs d = some fs1) : lookupA fs1 d ≠ none := by
  unfold mkdirParents at hm
  cases hld : lookupA fs d with
  | none =>
    rw [hld] at hm
    have hfs1 : fs1 = setA fs d FSObj.dir := (Option.some.inj hm).symm
    rw [hfs1, lookupA_setA, if_pos rfl]
    exact fun hc => Option.noConfusion hc
  | some o =>
    rw [hld] at hm
    cases o with
    | file c => simp at hm
    | dir =>
      have hfs1 : fs1 = fs := (Option.some.inj hm).symm
      rw [hfs1, hld]
      exact fun hc => Option.noConfusion hc
    | symlink t =>
      have hm' : (match lookupA fs t with
                  | some FSObj.dir => some fs
                  | _ => none) = some fs1 := hm
      cases hlt : lookupA fs t with
      | none => rw [hlt] at hm'; simp at hm'
      | some o2 =>
        cases o2 with
        | file c => rw [hlt] at hm'; simp at hm'
        | symlink u => rw [hlt] at hm'; simp at hm'
        | dir =>
          rw [hlt] at hm'
          have hfs1 : fs1 = fs := (Option.some.inj hm').symm
          rw [hfs1, hld]
          exact fun hc => Option.noConfusion hc

lemma mkdirParents_stable (fs' : FS) (d : String) (h : lookupA fs' d ≠ none) :
    mkdirParents fs' d = none ∨ mkdirParents fs' d = some fs' := by
  unfold mkdirParents
  cases hl : lookupA fs' d with
  | none => exact absurd hl h
  | some o =>
    cases o with
    | file c => exact Or.inl rfl
    | dir => exact Or.inr rfl
    | symlink t =>
      show (match lookupA fs' t with
            | some FSObj.dir => some fs'
            | _ => none) = none ∨
          (match lookupA fs' t with
            | some FSObj.dir => some fs'
            | _ => none) = some fs'
      cases hlt : lookupA fs' t with
      | none => exact Or.inl rfl
      | some o2 =>
        cases o2 with
        | dir => exact Or.inr rfl
        | file c => exact Or.inl rfl
        | symlink u => exact Or.inl rfl

/-- Inversion of the link step: the three ways it can succeed. -/
lemma linkStepF_inv (fs1 : FS) (lp rp : String) (fs2 : FS)
    (h : linkStepF fs1 lp rp = some fs2) :
    (∃ t, lookupA fs1 lp = some (FSObj.symlink t) ∧ fsExists fs1 lp = true ∧
      comparablePath t ≠ comparablePath rp ∧
      fs2 = setA (removeA fs1 lp) lp (FSObj.symlink rp)) ∨
    (∃ t, lookupA fs1 lp = some (FSObj.symlink t) ∧ fsExists fs1 lp = true ∧
      comparablePath t = comparablePath rp ∧ fs2 = fs1) ∨
    (lookupA fs1 lp = none ∧ fs2 = setA fs1 lp (FSObj.symlink rp)) := by
  unfold linkStepF at h
  by_cases hex : fsExists fs1 lp = true
  · rw [if_pos hex] at h
    cases hlk : lookupA fs1 lp with
    | none => rw [hlk] at h; simp at h
    | some o =>
      rw [hlk] at h
      cases o with
      | file c => simp at h
      | dir => simp at h
      | symlink t =>
        have h' : (if comparablePath t ≠ comparablePath rp then
              some (setA (removeA fs1 lp) lp (FSObj.symlink rp))
            else some fs1) = some fs2 := h
        by_cases hc : comparablePath t ≠ comparablePath rp
        · rw [if_pos hc] at h'
          exact Or.inl ⟨t, rfl, hex, hc, (Option.some.inj h').symm⟩
        · rw [if_neg hc] at h'
          exact Or.inr (Or.inl ⟨t, rfl, hex, not_not.mp hc,
            (Option.some.inj h').symm⟩)
  · rw [if_neg hex] at h
    cases hlk : lookupA fs1 lp with
    | none =>
      rw [hlk] at h
      exact Or.inr (Or.inr ⟨rfl, (Option.some.inj h).symm⟩)
    | some o => rw [hlk] at h; simp at h

/-- After the sidecar step the sidecar path always exists. -/
lemma fsExists_nfoStepF (fs2 : FS) (np nfo : String) :
    fsExists (nfoStepF fs2 np nfo) np = true := by
  unfold nfoStepF
  by_cases h : fsExists fs2 np = true
  · rw [if_pos h]
    exact h
  · rw [if_neg h]
    exact fsExists_of_file _ np nfo (by rw [lookupA_setA, if_pos rfl])

lemma nfoStepF_skip (fs2 : FS) (np nfo : String)
    (h : fsExists fs2 np = true) : nfoStepF fs2 np nfo = fs2 := by
  unfold nfoStepF
  rw [if_pos h]

/-- The sidecar step changes at most the sidecar path, and then only to the
written file. -/
lemma lookupA_nfoStepF (fs2 : FS) (np nfo q : String) :
    lookupA (nfoStepF fs2 np nfo) q = lookupA fs2 q ∨
    (q = np ∧ lookupA (nfoStepF fs2 np nfo) q = some (FSObj.file nfo)) := by
  unfold nfoStepF
  by_cases h : fsExists fs2 np = true
  · rw [if_pos h]
    exact Or.inl rfl
  · rw [if_neg h]
    by_cases hq : np = q
    · subst hq
      exact Or.inr ⟨rfl, by rw [lookupA_setA, if_pos rfl]⟩
    · exact Or.inl (by rw [lookupA_setA, if_neg hq])

/-- A second invocation of the writer is a no-op whenever the target directory
slot is occupied, the sidecar exists, the link slot holds either a symbolic
link already pointing (comparably) at the source or a regular file, and the
state entry is already stored. -/
lemma createMediaFiles_noop (fs3 : FS) (st1 : StateMap)
    (mediaFileID nfoContent resolvedPath targetDir filenameBase : String)
    (hne3 : lookupA fs3 targetDir ≠ none)
    (hnp3 : fsExists fs3 (targetDir ++ "/" ++ filenameBase ++ ".nfo") = true)
    (hlp3 : (∃ t, lookupA fs3 (targetDir ++ "/" ++ filenameBase ++ pySuffix resolvedPath) =
        some (FSObj.symlink t) ∧ comparablePath t = comparablePath resolvedPath) ∨
      (∃ c, lookupA fs3 (targetDir ++ "/" ++ filenameBase ++ pySuffix resolvedPath) =
        some (FSObj.file c)))
    (hstid : setA st1 mediaFileID
        ⟨targetDir ++ "/" ++ filenameBase ++ pySuffix resolvedPath,
         targetDir ++ "/" ++ filenameBase ++ ".nfo",
         resolvedPath, filenameBase⟩ = st1) :
    createMediaFiles fs3 st1 mediaFileID nfoContent resolvedPath targetDir
      filenameBase = (fs3, st1) := by
  rcases mkdirParents_stable fs3 targetDir hne3 with hm2 | hm2
  · exact createMediaFiles_eq_mkdir_none fs3 st1 _ _ _ _ _ hm2
  · rcases hlp3 with ⟨t, hlk3, hcmp3⟩ | ⟨c, hlk3⟩
    · by_cases hex3 : fsExists fs3
          (targetDir ++ "/" ++ filenameBase ++ pySuffix resolvedPath) = true
      · have hls2 := linkStepF_keep fs3 _ resolvedPath t hlk3 hex3 hcmp3
        rw [createMediaFiles_eq_go fs3 fs3 fs3 st1 _ _ _ _ _ hm2 hls2]
        rw [nfoStepF_skip fs3 _ nfoContent hnp3, hstid]
      · have hls2 := linkStepF_skip_broken fs3 _ resolvedPath _ hlk3
          (Bool.eq_false_iff.mpr hex3)
        exact createMediaFiles_eq_link_none fs3 fs3 st1 _ _ _ _ _ hm2 hls2
    · exact createMediaFiles_eq_link_none fs3 fs3 st1 _ _ _ _ _ hm2
        (linkStepF_skip_file fs3 _ resolvedPath c hlk3)

/-- C6. The Artifact Writer is idempotent: running `_create_media_files`
twice with the same record, resolved source, target directory and filename
base leaves the filesystem and the current-state snapshot exactly as after
the first run — the second run recreates no link, overwrites no sidecar and
rewrites no state. -/
theorem claim6_writer_idempotent (fs : FS) (st : StateMap)
    (mediaFileID nfoContent resolvedPath targetDir filenameBase : String) :
    createMediaFiles
      (createMediaFiles fs st mediaFileID nfoContent resolvedPath targetDir
        filenameBase).1
      (createMediaFiles fs st mediaFileID nfoContent resolvedPath targetDir
        filenameBase).2
      mediaFileID nfoContent resolvedPath targetDir filenameBase =
    createMediaFiles fs st mediaFileID nfoContent resolvedPath targetDir
      filenameBase := by
  have hlpne : targetDir ++ "/" ++ filenameBase ++ pySuffix resolvedPath ≠ targetDir :=
    path_extends_ne _ _ _
  have hnpne : targetDir ++ "/" ++ filenameBase ++ ".nfo" ≠ targetDir :=
    path_extends_ne _ _ _
  cases hm : mkdirParents fs targetDir with
  | none =>
    rw [createMediaFiles_eq_mkdir_none fs st _ _ _ _ _ hm]
    exact createMediaFiles_eq_mkdir_none fs st _ _ _ _ _ hm
  | some fs1 =>
    have hne1 : lookupA fs1 targetDir ≠ none :=
      mkdirParents_lookup_ne_none fs fs1 targetDir hm
    cases hls : linkStepF fs1
        (targetDir ++ "/" ++ filenameBase ++ pySuffix resolvedPath)
        resolvedPath with
    | none =>
      rw [createMediaFiles_eq_link_none fs fs1 st _ _ _ _ _ hm hls]
      rcases mkdirParents_stable fs1 targetDir hne1 with hm2 | hm2
      · exact createMediaFiles_eq_mkdir_none fs1 st _ _ _ _ _ hm2
      · exact createMediaFiles_eq_link_none fs1 fs1 st _ _ _ _ _ hm2 hls
    | some fs2 =>
      rw [createMediaFiles_eq_go fs fs1 fs2 st _ _ _ _ _ hm hls]
      have hdir2 : lookupA fs2 targetDir = lookupA fs1 targetDir := by
        rcases linkStepF_inv fs1 _ resolvedPath fs2 hls with
          ⟨t, hlk, hex, hc, hfs2⟩ | ⟨t, hlk, hex, hc, hfs2⟩ | ⟨hlk, hfs2⟩
        · rw [hfs2, lookupA_setA, if_neg hlpne, lookupA_removeA, if_neg hlpne]
        · rw [hfs2]
        · rw [hfs2, lookupA_setA, if_neg hlpne]
      have hlp2 : ∃ t, lookupA fs2
          (targetDir ++ "/" ++ filenameBase ++ pySuffix resolvedPath) =
            some (FSObj.symlink t) ∧
          comparablePath t = comparablePath resolvedPath := by
        rcases linkStepF_inv fs1 _ resolvedPath fs2 hls with
          ⟨t, hlk, hex, hc, hfs2⟩ | ⟨t, hlk, hex, hc, hfs2⟩ | ⟨hlk, hfs2⟩
        · exact ⟨resolvedPath, by rw [hfs2, lookupA_setA, if_pos rfl], rfl⟩
        · exact ⟨t, by rw [hfs2]; exact hlk, hc⟩
        · exact ⟨resolvedPath, by rw [hfs2, lookupA_setA, if_pos rfl], rfl⟩
      obtain ⟨t2, hlp2, hcmp2⟩ := hlp2
      have hdir3 : lookupA (nfoStepF fs2
          (targetDir ++ "/" ++ filenameBase ++ ".nfo") nfoContent) targetDir =
          lookupA fs1 targetDir := by
        rcases lookupA_nfoStepF fs2
            (targetDir ++ "/" ++ filenameBase ++ ".nfo") nfoContent targetDir with
          h | ⟨heq, _⟩
        · rw [h, hdir2]
        · exact absurd heq.symm hnpne
      apply createMediaFiles_noop
      · rw [hdir3]
        exact hne1
      · exact fsExists_nfoStepF fs2 _ nfoContent
      · rcases lookupA_nfoStepF fs2
            (targetDir ++ "/" ++ filenameBase ++ ".nfo") nfoContent
            (targetDir ++ "/" ++ filenameBase ++ pySuffix resolvedPath) with
          h | ⟨_, h⟩
        · exact Or.inl ⟨t2, by rw [h]; exact hlp2, hcmp2⟩
        · exact Or.inr ⟨nfoContent, h⟩
      · exact setA_setA st mediaFileID _ _

/-! ## Collision resolution -/

lemma string_append_cancel_left (X a b : String) (h : X ++ a = X ++ b) :
    a = b := by
  have h2 := congrArg String.data h
  rw [String.data_append, String.data_append] at h2
  have h3 := List.append_cancel_left h2
  cases a
  cases b
  exact congrArg String.mk h3

lemma nfo_ne_space_append (z : String) : (".nfo" : String) ≠ " - " ++ z := by
  intro h
  have h2 := congrArg String.data h
  rw [String.data_append] at h2
  injection h2 with ha _
  exact absurd ha (by decide)

/-- Every probed collision extension differs from ".nfo" and from any string
that starts with the identity-key separator. -/
lemma collision_suffix_props (e : String) (he : e ∈ collisionSuffixes) :
    e ≠ ".nfo" ∧ ∀ z : String, e ≠ " - " ++ z := by
  simp only [collisionSuffixes, List.mem_cons, List.not_mem_nil, or_false] at he
  rcases he with rfl | rfl | rfl | rfl | rfl <;>
    refine ⟨by decide, fun z h => ?_⟩ <;>
    · have h2 := congrArg String.data h
      rw [String.data_append] at h2
      injection h2 with ha _
      exact absurd ha (by decide)

/-- A base extended with the identity-key suffix never aliases a path built
from the plain base and a dot-extension. -/
lemma extended_base_ne (dir base idB e1 e2 : String)
    (h1 : ∀ z, e2 ≠ " - " ++ z) :
    dir ++ "/" ++ (base ++ " - " ++ idB) ++ e1 ≠ dir ++ "/" ++ base ++ e2 := by
  intro h
  have h3 := h
  simp only [String.append_assoc] at h3
  have h4 := string_append_cancel_left _ _ _ h3
  have h5 := string_append_cancel_left _ _ _ h4
  have h6 := string_append_cancel_left _ _ _ h5
  exact h1 _ h6.symm

lemma resolveFilenameBase_of_none (fs : FS) (prev : StateMap)
    (mediaFileID targetDir defaultBase resolvedPath : String)
    (h1 : lookupA prev mediaFileID = none) :
    resolveFilenameBase fs prev mediaFileID targetDir defaultBase resolvedPath =
      if collisionDetected fs targetDir defaultBase resolvedPath
      then defaultBase ++ " - " ++ mediaFileID
      else defaultBase := by
  simp only [resolveFilenameBase, getResolvedFilenameBase, h1]

lemma resolveFilenameBase_of_some (fs : FS) (prev : StateMap)
    (mediaFileID targetDir defaultBase resolvedPath : String)
    (r : ArtifactRecord) (h1 : lookupA prev mediaFileID = some r)
    (h2 : r.resolved_filename_base ≠ "") :
    resolveFilenameBase fs prev mediaFileID targetDir defaultBase resolvedPath =
      r.resolved_filename_base := by
  simp only [resolveFilenameBase, getResolvedFilenameBase, h1]
  rw [if_neg h2]

lemma collisionDetected_false_of_clean (fs : FS)
    (targetDir defaultBase resolvedPath : String)
    (h : ∀ s, lookupA fs (targetDir ++ "/" ++ defaultBase ++ s) = none) :
    collisionDetected fs targetDir defaultBase resolvedPath = false := by
  unfold collisionDetected collisionSuffixes
  simp [List.any_cons, List.any_nil,
    fsExists_of_lookup_none _ _ (h ".mpg"),
    fsExists_of_lookup_none _ _ (h ".mkv"),
    fsExists_of_lookup_none _ _ (h ".mp4"),
    fsExists_of_lookup_none _ _ (h ".ts"),
    fsExists_of_lookup_none _ _ (h ".avi")]

/-- C3, amended.  Two records with distinct identity keys, the same default
base in the same target directory, and (comparably) different resolved
sources, where the first record's source extension is one of the probed
collision extensions: processed in sequence from a clean directory and an
unmemoized previous state, the resolver gives the first record exactly the
untouched default base and the second record the default base with its
identity key appended, two distinct names; re-running resolution for both
keys against the resulting memoized state reproduces the same two bases on
any filesystem. -/
theorem claim3_collision_resolution (fs0 : FS) (prev st0 : StateMap)
    (idA idB dir base srcA srcB nfoA nfoB cA : String)
    (h_ids : idA ≠ idB)
    (h_base : base ≠ "")
    (h_prevA : lookupA prev idA = none)
    (h_prevB : lookupA prev idB = none)
    (h_cmp : comparablePath srcA ≠ comparablePath srcB)
    (h_srcA : lookupA fs0 srcA = some (FSObj.file cA))
    (h_extA : pySuffix srcA ∈ collisionSuffixes)
    (h_dir : lookupA fs0 dir = none ∨ lookupA fs0 dir = some FSObj.dir)
    (h_clean : ∀ s, lookupA fs0 (dir ++ "/" ++ base ++ s) = none)
    (h_sep : ∀ s, dir ++ "/" ++ base ++ s ≠ srcA)
    (h_sdir : srcA ≠ dir) :
    let baseA := resolveFilenameBase fs0 prev idA dir base srcA
    let w1 := createMediaFiles fs0 st0 idA nfoA srcA dir baseA
    let baseB := resolveFilenameBase w1.1 prev idB dir base srcB
    let w2 := createMediaFiles w1.1 w1.2 idB nfoB srcB dir baseB
    baseA = base ∧ baseB = base ++ " - " ++ idB ∧ baseA ≠ baseB ∧
    ∀ fs', resolveFilenameBase fs' w2.2 idA dir base srcA = baseA ∧
      resolveFilenameBase fs' w2.2 idB dir base srcB = baseB := by
  intro baseA w1 baseB w2
  have hsufA := collision_suffix_props _ h_extA
  have hlpne : dir ++ "/" ++ base ++ pySuffix srcA ≠ dir := path_extends_ne _ _ _
  have hnpne : dir ++ "/" ++ base ++ ".nfo" ≠ dir := path_extends_ne _ _ _
  have hlpAnp : dir ++ "/" ++ base ++ pySuffix srcA ≠ dir ++ "/" ++ base ++ ".nfo" :=
    fun h => hsufA.1 (string_append_cancel_left _ _ _ h)
  -- Run 1, record A: no memo, clean scan, default base kept.
  have hbaseA : baseA = base := by
    show resolveFilenameBase fs0 prev idA dir base srcA = base
    rw [resolveFilenameBase_of_none fs0 prev idA dir base srcA h_prevA,
      collisionDetected_false_of_clean fs0 dir base srcA h_clean,
      if_neg Bool.false_ne_true]
  -- The write for record A.
  obtain ⟨fs1, hm, htr, hd1⟩ : ∃ fs1, mkdirParents fs0 dir = some fs1 ∧
      (∀ q, q ≠ dir → lookupA fs1 q = lookupA fs0 q) ∧
      lookupA fs1 dir = some FSObj.dir := by
    rcases h_dir with hd | hd
    · exact ⟨setA fs0 dir FSObj.dir, mkdirParents_of_absent fs0 dir hd,
        fun q hq => by rw [lookupA_setA, if_neg (fun h => hq h.symm)],
        by rw [lookupA_setA, if_pos rfl]⟩
    · exact ⟨fs0, mkdirParents_of_dir fs0 dir hd, fun q hq => rfl, hd⟩
  have hlk1 : lookupA fs1 (dir ++ "/" ++ base ++ pySuffix srcA) = none := by
    rw [htr _ hlpne]
    exact h_clean _
  have hls1 := linkStepF_create fs1 _ srcA hlk1
  have hw1 : w1 =
      (nfoStepF (setA fs1 (dir ++ "/" ++ base ++ pySuffix srcA)
          (FSObj.symlink srcA)) (dir ++ "/" ++ base ++ ".nfo") nfoA,
       setA st0 idA ⟨dir ++ "/" ++ base ++ pySuffix srcA,
         dir ++ "/" ++ base ++ ".nfo", srcA, base⟩) := by
    show createMediaFiles fs0 st0 idA nfoA srcA dir baseA = _
    rw [hbaseA]
    exact createMediaFiles_eq_go fs0 fs1 _ st0 _ _ _ _ _ hm hls1
  have hnp2 : lookupA (setA fs1 (dir ++ "/" ++ base ++ pySuffix srcA)
      (FSObj.symlink srcA)) (dir ++ "/" ++ base ++ ".nfo") = none := by
    rw [lookupA_setA, if_neg hlpAnp, htr _ hnpne]
    exact h_clean _
  have hfs3eq : nfoStepF (setA fs1 (dir ++ "/" ++ base ++ pySuffix srcA)
      (FSObj.symlink srcA)) (dir ++ "/" ++ base ++ ".nfo") nfoA =
      setA (setA fs1 (dir ++ "/" ++ base ++ pySuffix srcA)
        (FSObj.symlink srcA)) (dir ++ "/" ++ base ++ ".nfo")
        (FSObj.file nfoA) := by
    unfold nfoStepF
    rw [if_neg (by rw [fsExists_of_lookup_none _ _ hnp2]; exact Bool.false_ne_true)]
  have hw11 : w1.1 = setA (setA fs1 (dir ++ "/" ++ base ++ pySuffix srcA)
      (FSObj.symlink srcA)) (dir ++ "/" ++ base ++ ".nfo") (FSObj.file nfoA) := by
    rw [hw1, hfs3eq]
  -- Record B's collision scan finds record A's link.
  have hlkB : lookupA (setA (setA fs1 (dir ++ "/" ++ base ++ pySuffix srcA)
      (FSObj.symlink srcA)) (dir ++ "/" ++ base ++ ".nfo") (FSObj.file nfoA))
      (dir ++ "/" ++ base ++ pySuffix srcA) = some (FSObj.symlink srcA) := by
    rw [lookupA_setA, if_neg (fun h => hlpAnp h.symm), lookupA_setA, if_pos rfl]
  have hsrcA3 : lookupA (setA (setA fs1 (dir ++ "/" ++ base ++ pySuffix srcA)
      (FSObj.symlink srcA)) (dir ++ "/" ++ base ++ ".nfo") (FSObj.file nfoA))
      srcA = some (FSObj.file cA) := by
    rw [lookupA_setA, if_neg (h_sep ".nfo"), lookupA_setA,
      if_neg (h_sep (pySuffix srcA)), htr _ h_sdir]
    exact h_srcA
  have hcd : collisionDetected (setA (setA fs1
      (dir ++ "/" ++ base ++ pySuffix srcA) (FSObj.symlink srcA))
      (dir ++ "/" ++ base ++ ".nfo") (FSObj.file nfoA)) dir base srcB = true := by
    unfold collisionDetected
    rw [List.any_eq_true]
    refine ⟨pySuffix srcA, h_extA, ?_⟩
    show (fsExists _ (dir ++ "/" ++ base ++ pySuffix srcA) &&
        isSymlinkAt _ (dir ++ "/" ++ base ++ pySuffix srcA) &&
        match lookupA _ (dir ++ "/" ++ base ++ pySuffix srcA) with
          | some (FSObj.symlink t) => comparablePath t != comparablePath srcB
          | _ => false) = true
    rw [fsExists_of_symlink_file _ _ srcA cA hlkB hsrcA3]
    rw [show isSymlinkAt (setA (setA fs1 (dir ++ "/" ++ base ++ pySuffix srcA)
        (FSObj.symlink srcA)) (dir ++ "/" ++ base ++ ".nfo") (FSObj.file nfoA))
        (dir ++ "/" ++ base ++ pySuffix srcA) = true from by
      unfold isSymlinkAt
      rw [hlkB]]
    rw [hlkB]
    simp only [Bool.true_and]
    exact bne_iff_ne.mpr h_cmp
  have hbaseB : baseB = base ++ " - " ++ idB := by
    show resolveFilenameBase w1.1 prev idB dir base srcB = _
    rw [hw11, resolveFilenameBase_of_none _ _ _ _ _ _ h_prevB, if_pos hcd]
  have hAB : base ≠ base ++ " - " ++ idB := by
    intro h
    have h2 := congrArg String.length h
    simp only [String.length_append] at h2
    have h3 : (" - " : String).length = 3 := rfl
    omega
  refine ⟨hbaseA, hbaseB, by rw [hbaseA, hbaseB]; exact hAB, ?_⟩
  -- The write for record B and the memoized-state stability.
  have hd3 : lookupA (setA (setA fs1 (dir ++ "/" ++ base ++ pySuffix srcA)
      (FSObj.symlink srcA)) (dir ++ "/" ++ base ++ ".nfo") (FSObj.file nfoA))
      dir = some FSObj.dir := by
    rw [lookupA_setA, if_neg hnpne, lookupA_setA, if_neg hlpne]
    exact hd1
  have hlpBeq : dir ++ "/" ++ (base ++ " - " ++ idB) ++ pySuffix srcB =
      dir ++ "/" ++ base ++ (" - " ++ (idB ++ pySuffix srcB)) := by
    simp only [String.append_assoc]
  have hlkB0 : lookupA (setA (setA fs1 (dir ++ "/" ++ base ++ pySuffix srcA)
      (FSObj.symlink srcA)) (dir ++ "/" ++ base ++ ".nfo") (FSObj.file nfoA))
      (dir ++ "/" ++ (base ++ " - " ++ idB) ++ pySuffix srcB) = none := by
    rw [lookupA_setA,
      if_neg (fun h => extended_base_ne dir base idB (pySuffix srcB) ".nfo"
        nfo_ne_space_append h.symm),
      lookupA_setA,
      if_neg (fun h => extended_base_ne dir base idB (pySuffix srcB)
        (pySuffix srcA) hsufA.2 h.symm),
      htr _ (path_extends_ne _ _ _), hlpBeq]
    exact h_clean _
  have hlsB := linkStepF_create _ _ srcB hlkB0
  have hw22 : w2.2 = setA w1.2 idB
      ⟨dir ++ "/" ++ (base ++ " - " ++ idB) ++ pySuffix srcB,
       dir ++ "/" ++ (base ++ " - " ++ idB) ++ ".nfo",
       srcB, base ++ " - " ++ idB⟩ := by
    show (createMediaFiles w1.1 w1.2 idB nfoB srcB dir baseB).2 = _
    rw [hbaseB, hw11,
      createMediaFiles_eq_go _ _ _ w1.2 _ _ _ _ _
        (mkdirParents_of_dir _ dir hd3) hlsB]
  have hw12 : w1.2 = setA st0 idA ⟨dir ++ "/" ++ base ++ pySuffix srcA,
      dir ++ "/" ++ base ++ ".nfo", srcA, base⟩ := by
    rw [hw1]
  have hBne : base ++ " - " ++ idB ≠ "" := by
    intro h
    have h2 := congrArg String.length h
    simp only [String.length_append] at h2
    have h3 : (" - " : String).length = 3 := rfl
    have h4 : ("" : String).length = 0 := rfl
    omega
  intro fs'
  constructor
  · have hlookA : lookupA w2.2 idA = some ⟨dir ++ "/" ++ base ++ pySuffix srcA,
        dir ++ "/" ++ base ++ ".nfo", srcA, base⟩ := by
      rw [hw22, lookupA_setA, if_neg (fun h => h_ids h.symm), hw12,
        lookupA_setA, if_pos rfl]
    rw [hbaseA, resolveFilenameBase_of_some fs' w2.2 idA dir base srcA _
      hlookA h_base]
  · have hlookB : lookupA w2.2 idB = some
        ⟨dir ++ "/" ++ (base ++ " - " ++ idB) ++ pySuffix srcB,
         dir ++ "/" ++ (base ++ " - " ++ idB) ++ ".nfo",
         srcB, base ++ " - " ++ idB⟩ := by
      rw [hw22, lookupA_setA, if_pos rfl]
    rw [hbaseB, resolveFilenameBase_of_some fs' w2.2 idB dir base srcB _
      hlookB hBne]

/-- C3, witness for the amended theorem on a concrete two-record scenario. -/
theorem claim3_collision_resolution_witness :
    resolveFilenameBase [("/m/a.mkv", FSObj.file ""), ("/m/b.mkv", FSObj.file "")]
      [] "101" "/out" "B" "/m/a.mkv" = "B" := by
  have hka : ∀ s : String, ("/m/a.mkv" : String) ≠ "/out" ++ "/" ++ "B" ++ s := by
    intro s h
    have h2 := congrArg String.data h
    simp only [String.data_append] at h2
    injection h2 with a1 b1
    injection b1 with a2 _
    exact absurd a2 (by decide)
  have hkb : ∀ s : String, ("/m/b.mkv" : String) ≠ "/out" ++ "/" ++ "B" ++ s := by
    intro s h
    have h2 := congrArg String.data h
    simp only [String.data_append] at h2
    injection h2 with a1 b1
    injection b1 with a2 _
    exact absurd a2 (by decide)
  have hclean : ∀ s, lookupA
      [("/m/a.mkv", FSObj.file ""), ("/m/b.mkv", FSObj.file "")]
      ("/out" ++ "/" ++ "B" ++ s) = none := by
    intro s
    show (if "/m/a.mkv" = "/out" ++ "/" ++ "B" ++ s then some (FSObj.file "")
      else if "/m/b.mkv" = "/out" ++ "/" ++ "B" ++ s then some (FSObj.file "")
      else none) = none
    rw [if_neg (hka s), if_neg (hkb s)]
  have T := claim3_collision_resolution
    [("/m/a.mkv", FSObj.file ""), ("/m/b.mkv", FSObj.file "")] [] []
    "101" "102" "/out" "B" "/m/a.mkv" "/m/b.mkv" "x" "y" ""
    (by decide) (by decide) rfl rfl (by decide) (by decide) (by decide)
    (Or.inl rfl) hclean (fun s h => hka s h.symm) (by decide)
  exact T.1

/-- C3, counterexample.  Two records with distinct identity keys, equal
default bases and different resolved sources whose extension (".webm") is
outside the probed candidate list: the collision scan sees nothing, and the
resolver hands BOTH records the untouched default base — the final bases are
not distinct, refuting the claim as stated. -/
theorem claim3_counterexample :
    resolveFilenameBase
      [("/m/a.webm", FSObj.file ""), ("/m/b.webm", FSObj.file "")]
      [] "101" "/out" "B" "/m/a.webm" = "B" ∧
    resolveFilenameBase
      (createMediaFiles
        [("/m/a.webm", FSObj.file ""), ("/m/b.webm", FSObj.file "")]
        [] "101" "x" "/m/a.webm" "/out" "B").1
      [] "102" "/out" "B" "/m/b.webm" = "B" := by
  refine ⟨by decide, by decide⟩
